/-
Verification of the trading decision / risk-management engine in src/app.js.

The JavaScript source is shallowly embedded in Lean 4:

* JavaScript numbers are modelled as `Option ℚ`: `some q` is an ordinary
  number and `none` stands for the non-numeric values `NaN` / `undefined`
  that the source can produce (an uninitialized `finalPnl`, arithmetic on
  `undefined`).  All arithmetic helpers are `none`-absorbing and every
  comparison involving `none` is `false`, exactly as NaN/undefined
  comparisons behave in JavaScript.  Division by zero is collapsed to
  `none` (JavaScript yields ±Infinity there; the engine never divides by
  zero on any input considered in this development, since balances,
  baselines and entry prices are nonzero).
* Prices, indicator values and thresholds, which are always genuine
  numbers in the source, are plain `ℚ`.
* Methods that mutate `this` become functions `State → State` (or
  `State → Result × State`).
* `Array.prototype.forEach` combined with `splice` inside the callback is
  modelled index by index, with the bound captured before the loop and a
  presence check at each index, which is the ECMAScript semantics.
-/
import Mathlib

/-! ## JavaScript-number helpers (`Option ℚ`, `none` = NaN/undefined) -/

/-- JavaScript addition: `NaN`/`undefined` absorbs. -/
def jadd : Option ℚ → Option ℚ → Option ℚ
  | some a, some b => some (a + b)
  | _, _ => none

/-- JavaScript subtraction: `NaN`/`undefined` absorbs. -/
def jsub : Option ℚ → Option ℚ → Option ℚ
  | some a, some b => some (a - b)
  | _, _ => none

/-- JavaScript multiplication: `NaN`/`undefined` absorbs. -/
def jmul : Option ℚ → Option ℚ → Option ℚ
  | some a, some b => some (a * b)
  | _, _ => none

/-- JavaScript division; division by zero (±Infinity in JavaScript) is
collapsed into `none` together with NaN — the engine never divides by zero
in the situations studied here. -/
def jdiv : Option ℚ → Option ℚ → Option ℚ
  | some a, some b => if b = 0 then none else some (a / b)
  | _, _ => none

/-- JavaScript `<`: any comparison with NaN/undefined is false. -/
def jltB : Option ℚ → Option ℚ → Bool
  | some a, some b => decide (a < b)
  | _, _ => false

/-- JavaScript `<=`: any comparison with NaN/undefined is false. -/
def jleB : Option ℚ → Option ℚ → Bool
  | some a, some b => decide (a ≤ b)
  | _, _ => false

/-- JavaScript `>`: any comparison with NaN/undefined is false. -/
def jgtB : Option ℚ → Option ℚ → Bool
  | some a, some b => decide (b < a)
  | _, _ => false

/-- JavaScript `>=`: any comparison with NaN/undefined is false. -/
def jgeB : Option ℚ → Option ℚ → Bool
  | some a, some b => decide (b ≤ a)
  | _, _ => false

/-! ## Basic enumerations -/

/-- Position direction (the strings `LONG` / `SHORT` in the source). -/
inductive Direction where
  | LONG
  | SHORT
deriving DecidableEq, Repr

/-- Trend label (`bullish` / `bearish`). -/
inductive Trend where
  | bullish
  | bearish
deriving DecidableEq, Repr

/-- Close reason (`TP2` / `SL` / `MANUAL`). -/
inductive CloseReason where
  | TP2
  | SL
  | MANUAL
deriving DecidableEq, Repr

/-- Analysis-level display status (`waiting`/`analyzing`/`passed`/`failed`). -/
inductive LevelStatus where
  | waiting
  | analyzing
  | passed
  | failed
deriving DecidableEq, Repr

/-! ## RiskManager (src/app.js lines 1179–1263) -/

/-- `RiskManager` state.  The numeric limit fields set in the constructor
(`dailyLossLimit`, `weeklyDrawdownLimit`, `monthlyKillSwitch`,
`maxDrawdownAlert`, `positionRiskPercentage`, `stopLossPercentage`) are
never reassigned anywhere in the source, so they are modelled as the
constant definitions below instead of record fields. -/
structure RiskManager where
  initialBalance : Option ℚ
  currentBalance : Option ℚ
  dailyStartBalance : Option ℚ
  weeklyStartBalance : Option ℚ
  monthlyStartBalance : Option ℚ
  consecutiveLosses : ℕ
  tradingEnabled : Bool
deriving DecidableEq, Repr

/-- Constructor-set constant `this.dailyLossLimit = -3.0`. -/
def RiskManager.dailyLossLimit : ℚ := -3.0

/-- Constructor-set constant `this.weeklyDrawdownLimit = -8.0`. -/
def RiskManager.weeklyDrawdownLimit : ℚ := -8.0

/-- Constructor-set constant `this.monthlyKillSwitch = -15.0`. -/
def RiskManager.monthlyKillSwitch : ℚ := -15.0

/-- Constructor-set constant `this.maxDrawdownAlert = -12.0`. -/
def RiskManager.maxDrawdownAlert : ℚ := -12.0

/-- Constructor-set constant `this.positionRiskPercentage = 0.5`. -/
def RiskManager.positionRiskPercentage : ℚ := 0.5

/-- Constructor-set constant `this.stopLossPercentage = 1.0`. -/
def RiskManager.stopLossPercentage : ℚ := 1.0

/-- `new RiskManager(initialBalance)`. -/
def mkRiskManager (initialBalance : Option ℚ) : RiskManager :=
  { initialBalance := initialBalance
    currentBalance := initialBalance
    dailyStartBalance := initialBalance
    weeklyStartBalance := initialBalance
    monthlyStartBalance := initialBalance
    consecutiveLosses := 0
    tradingEnabled := true }

/-- `getDailyDrawdown()`. -/
def RiskManager.getDailyDrawdown (r : RiskManager) : Option ℚ :=
  jmul (jdiv (jsub r.currentBalance r.dailyStartBalance) r.dailyStartBalance) (some 100)

/-- `getWeeklyDrawdown()`. -/
def RiskManager.getWeeklyDrawdown (r : RiskManager) : Option ℚ :=
  jmul (jdiv (jsub r.currentBalance r.weeklyStartBalance) r.weeklyStartBalance) (some 100)

/-- `getMonthlyDrawdown()`. -/
def RiskManager.getMonthlyDrawdown (r : RiskManager) : Option ℚ :=
  jmul (jdiv (jsub r.currentBalance r.monthlyStartBalance) r.monthlyStartBalance) (some 100)

/-- `canTrade()`.  Returns the boolean result together with the updated
state (the method can clear `tradingEnabled`). -/
def RiskManager.canTrade (r : RiskManager) : Bool × RiskManager :=
  if !r.tradingEnabled then (false, r)
  else if jleB r.getDailyDrawdown (some RiskManager.dailyLossLimit) then
    (false, { r with tradingEnabled := false })
  else if jleB r.getMonthlyDrawdown (some RiskManager.monthlyKillSwitch) then
    (false, { r with tradingEnabled := false })
  else if 3 ≤ r.consecutiveLosses then (false, r)
  else (true, r)

/-- `calculatePositionSize()`. -/
def RiskManager.calculatePositionSize (r : RiskManager) : Option ℚ :=
  let riskAmount := jmul r.currentBalance (some (RiskManager.positionRiskPercentage / 100))
  if jleB r.getWeeklyDrawdown (some RiskManager.weeklyDrawdownLimit) then
    jmul riskAmount (some 0.7)
  else
    riskAmount

/-- `recordTrade(profit)`.  The argument is `Option ℚ` because
`closePosition` can pass an uninitialized (`undefined`) value; JavaScript
evaluates `undefined < 0` to `false`, so that case resets the streak. -/
def RiskManager.recordTrade (r : RiskManager) (profit : Option ℚ) : RiskManager :=
  { r with
    currentBalance := jadd r.currentBalance profit
    consecutiveLosses := if jltB profit (some 0) then r.consecutiveLosses + 1 else 0 }

/-- `resetDaily()`. -/
def RiskManager.resetDaily (r : RiskManager) : RiskManager :=
  { r with dailyStartBalance := r.currentBalance }

/-- `resetWeekly()`. -/
def RiskManager.resetWeekly (r : RiskManager) : RiskManager :=
  { r with weeklyStartBalance := r.currentBalance }

/-- `resetMonthly()`. -/
def RiskManager.resetMonthly (r : RiskManager) : RiskManager :=
  { r with monthlyStartBalance := r.currentBalance }

/-! ## Market data: candles and indicators (src/app.js lines 1040–1177) -/

/-- One OHLCV candle. -/
structure Candle where
  time : ℤ
  open_ : ℚ
  high : ℚ
  low : ℚ
  close : ℚ
  volume : ℚ
deriving DecidableEq, Repr

/-- Out-of-range array reads never happen on the indices generated by
`calculateRSI`; a zero candle is used as the `getD` default. -/
def defaultCandle : Candle :=
  { time := 0, open_ := 0, high := 0, low := 0, close := 0, volume := 0 }

/-- `history[i].close` with the list-read default. -/
def closeAt (history : List Candle) (i : ℕ) : ℚ :=
  (history.getD i defaultCandle).close

/-- One step of the gains/losses accumulation loop in `calculateRSI`:
`change = history[i].close - history[i-1].close`, positive changes add to
gains, other changes subtract from (i.e. add their magnitude to) losses. -/
def rsiStep (history : List Candle) (gl : ℚ × ℚ) (i : ℕ) : ℚ × ℚ :=
  let change := closeAt history i - closeAt history (i - 1)
  if 0 < change then (gl.1 + change, gl.2) else (gl.1, gl.2 - change)

/-- `calculateRSI(history, period)` (src/app.js lines 1130–1148).  The JS
loop runs `i` from `history.length - period` to `history.length - 1`. -/
def calculateRSI (history : List Candle) (period : ℕ) : ℚ :=
  if history.length < period + 1 then 50
  else
    let gl := (List.range' (history.length - period) period).foldl (rsiStep history) (0, 0)
    let avgGain := gl.1 / period
    let avgLoss := gl.2 / period
    if avgLoss = 0 then 100
    else 100 - 100 / (1 + avgGain / avgLoss)

/-- The close-to-close deltas examined by `calculateRSI`: one delta for
each of the most recent `period` closes (each close minus its
predecessor).  Stated from the specification text of C8. -/
def recentDeltas (history : List Candle) (period : ℕ) : List ℚ :=
  (List.range' (history.length - period) period).map
    (fun i => closeAt history i - closeAt history (i - 1))

/-- Sum of the positive deltas (specification-side definition for C8). -/
def gainsSum (ds : List ℚ) : ℚ :=
  (ds.filter (fun d => decide (0 < d))).sum

/-- Sum of the absolute values of the negative deltas
(specification-side definition for C8). -/
def lossesSum (ds : List ℚ) : ℚ :=
  ((ds.filter (fun d => decide (d < 0))).map (fun d => |d|)).sum

/-! ## Assets, positions and the trading engine
(src/app.js lines 1040–1052 and 1265–1768) -/

/-- One tradable instrument (`{ symbol, name, price, basePrice }`). -/
structure Asset where
  symbol : String
  name : String
  price : ℚ
  basePrice : ℚ
deriving DecidableEq, Repr

/-- The indicator snapshot stored in `this.indicators[symbol]`. -/
structure Indicators where
  rsi : ℚ
  ma9 : ℚ
  ma21 : ℚ
  avgVolume : ℚ
  currentVolume : ℚ
  volatility : ℚ
  trend : Trend
deriving DecidableEq, Repr

/-- The `DataEngine` state used by the trading engine: the asset list and
the per-symbol indicator snapshots.  The raw candle history only feeds
`calculateIndicators`; it is not needed by the engine operations studied
here, and `calculateRSI` above is verified as a standalone function. -/
structure DataEngine where
  assets : List Asset
  indicators : List (String × Indicators)
deriving DecidableEq, Repr

/-- `getAsset(symbol)` (`Array.prototype.find`). -/
def DataEngine.getAsset (d : DataEngine) (symbol : String) : Option Asset :=
  d.assets.find? (fun a => a.symbol = symbol)

/-- `getIndicators(symbol)`: `none` models the empty object `{}` returned
when no snapshot exists — every field read on it is `undefined`. -/
def DataEngine.getIndicators (d : DataEngine) (symbol : String) : Option Indicators :=
  (d.indicators.find? (fun e => e.1 = symbol)).map (fun e => e.2)

/-- `getAsset(symbol).price` as used by `updatePositions`/`closePosition`.
A missing symbol would throw in JavaScript; the engine only ever stores
symbols of existing assets, and 0 is used as the (unreachable) default. -/
def DataEngine.priceOf (d : DataEngine) (symbol : String) : ℚ :=
  match d.getAsset symbol with
  | some a => a.price
  | none => 0

/-- An open position.  `size` and `pnl` are JavaScript numbers derived
from the (possibly NaN) balance, hence `Option ℚ`; the price levels are
always genuine numbers.  `checklistScore` is attached after creation by
`runAnalysisCycle` (absent = `none`). -/
structure Position where
  id : ℤ
  slot : ℕ
  symbol : String
  direction : Direction
  pattern : String
  entryPrice : ℚ
  stopLoss : ℚ
  tp1 : ℚ
  tp2 : ℚ
  size : Option ℚ
  tp1Hit : Bool
  openTime : ℤ
  pnl : Option ℚ
  checklistScore : Option ℕ
deriving DecidableEq, Repr

/-- A closed trade: the position snapshot spread into the record plus the
close data (`{...position, closePrice, closeTime, closeReason, finalPnl}`). -/
structure ClosedTrade where
  pos : Position
  closePrice : ℚ
  closeTime : ℤ
  closeReason : CloseReason
  finalPnl : Option ℚ
deriving DecidableEq, Repr

/-- The four analysis-level display flags. -/
structure AnalysisState where
  level1 : LevelStatus
  level2 : LevelStatus
  level3 : LevelStatus
  level4 : LevelStatus
deriving DecidableEq, Repr

/-- `TradingEngine` state.  `maxPositions` is set to 2 in the constructor
and never reassigned, so it is the constant definition below. -/
structure Engine where
  dataEngine : DataEngine
  riskManager : RiskManager
  positions : List Position
  closedTrades : List ClosedTrade
  isRunning : Bool
  analysisState : AnalysisState
  fearGreedIndex : ℚ
  lastAnalysisTime : ℤ
deriving DecidableEq, Repr

/-- Constructor-set constant `this.maxPositions = 2`. -/
def Engine.maxPositions : ℕ := 2

/-- `openPosition(asset, direction, pattern)` (src/app.js lines
1470–1506).  `now` stands for the two `Date.now()` reads (`id`,
`openTime`).  Returns the updated engine and the created position. -/
def Engine.openPosition (e : Engine) (asset : Asset) (direction : Direction)
    (pattern : String) (now : ℤ) : Engine × Position :=
  let positionSize := e.riskManager.calculatePositionSize
  let entryPrice := asset.price
  let slippage := entryPrice * 0.0005
  let actualEntry := if direction = .LONG then entryPrice + slippage else entryPrice - slippage
  let stopLoss :=
    if direction = .LONG then actualEntry * (1 - RiskManager.stopLossPercentage / 100)
    else actualEntry * (1 + RiskManager.stopLossPercentage / 100)
  let tp1 := if direction = .LONG then actualEntry * 1.005 else actualEntry * 0.995
  let tp2 := if direction = .LONG then actualEntry * 1.012 else actualEntry * 0.988
  let position : Position :=
    { id := now
      slot := e.positions.length + 1
      symbol := asset.symbol
      direction := direction
      pattern := pattern
      entryPrice := actualEntry
      stopLoss := stopLoss
      tp1 := tp1
      tp2 := tp2
      size := positionSize
      tp1Hit := false
      openTime := now
      pnl := some 0
      checklistScore := none }
  ({ e with positions := e.positions ++ [position] }, position)

/-- `closePosition(index, reason)` (src/app.js lines 1551–1582).
For `MANUAL` closes neither `if` branch assigns `finalPnl`, so the source
passes `undefined` to `recordTrade` and stores `undefined` in the trade
record; this is the `none` case here.  An out-of-range index (which would
throw in JavaScript and is never produced by the engine's callers) leaves
the state unchanged. -/
def Engine.closePosition (e : Engine) (index : ℕ) (reason : CloseReason) (now : ℤ) : Engine :=
  match e.positions[index]? with
  | none => e
  | some position =>
    let price := e.dataEngine.priceOf position.symbol
    let finalPnl : Option ℚ :=
      if reason = .TP2 then
        jmul (jmul position.size (some 0.5)) (some 0.012)
      else if reason = .SL then
        if position.direction = .LONG then
          jmul (jdiv (some (price - position.entryPrice)) (some position.entryPrice)) position.size
        else
          jmul (jdiv (some (position.entryPrice - price)) (some position.entryPrice)) position.size
      else
        none
    { e with
      riskManager := e.riskManager.recordTrade finalPnl
      closedTrades := e.closedTrades ++
        [{ pos := position, closePrice := price, closeTime := now,
           closeReason := reason, finalPnl := finalPnl }]
      positions := e.positions.eraseIdx index }

/-- The live P&L formula of `updatePositions`: the signed
percentage-of-entry move times the notional size. -/
def pnlOf (position : Position) (currentPrice : ℚ) : Option ℚ :=
  if position.direction = .LONG then
    jmul (jdiv (some (currentPrice - position.entryPrice)) (some position.entryPrice))
      position.size
  else
    jmul (jdiv (some (position.entryPrice - currentPrice)) (some position.entryPrice))
      position.size

/-- The TP1 trigger of `updatePositions`: not yet hit and the price has
crossed `tp1` in the favorable direction. -/
def tp1Check (p : Position) (currentPrice : ℚ) : Bool :=
  !p.tp1Hit &&
    ((p.direction = .LONG && decide (p.tp1 ≤ currentPrice)) ||
     (p.direction = .SHORT && decide (currentPrice ≤ p.tp1)))

/-- The TP2 trigger of `updatePositions`. -/
def tp2Check (p : Position) (currentPrice : ℚ) : Bool :=
  (p.direction = .LONG && decide (p.tp2 ≤ currentPrice)) ||
  (p.direction = .SHORT && decide (currentPrice ≤ p.tp2))

/-- The stop-loss trigger of `updatePositions` (evaluated against the
possibly relocated stop). -/
def slCheck (p : Position) (currentPrice : ℚ) : Bool :=
  (p.direction = .LONG && decide (currentPrice ≤ p.stopLoss)) ||
  (p.direction = .SHORT && decide (p.stopLoss ≤ currentPrice))

/-- The body of the `forEach` callback in `updatePositions` for array
index `k`: P&L recomputation, the TP1 step, then the TP2 and stop-loss
close checks (the stop-loss check reads the local `position` object, i.e.
the state of the position after the TP1 step, even if the TP2 check
already removed it from the array). -/
def Engine.processAtIndex (st : Engine) (k : ℕ) (now : ℤ) : Engine :=
  match st.positions[k]? with
  | none => st
  | some position =>
    let currentPrice := st.dataEngine.priceOf position.symbol
    let p1 : Position := { position with pnl := pnlOf position currentPrice }
    let p2 : Position :=
      if tp1Check p1 currentPrice then { p1 with tp1Hit := true, stopLoss := p1.entryPrice }
      else p1
    let rm1 :=
      if tp1Check p1 currentPrice then
        st.riskManager.recordTrade (jmul (jmul p1.size (some 0.5)) (some 0.005))
      else st.riskManager
    let st1 := { st with positions := st.positions.set k p2, riskManager := rm1 }
    let st2 := if tp2Check p2 currentPrice then st1.closePosition k .TP2 now else st1
    if slCheck p2 currentPrice then st2.closePosition k .SL now else st2

/-- `updatePositions()` (src/app.js lines 1508–1549).  The ECMAScript
`forEach` fixes the iteration bound up front and skips indices that are
no longer present after a `splice`, hence the per-index length guard. -/
def Engine.updatePositions (e : Engine) (now : ℤ) : Engine :=
  (List.range e.positions.length).foldl
    (fun st k => if k < st.positions.length then st.processAtIndex k now else st) e

/-- `manualClosePosition(slotIndex)` (src/app.js lines 1620–1624).
The JavaScript guard is `slotIndex >= 0 && slotIndex < positions.length`;
the index is a natural number here. -/
def Engine.manualClosePosition (e : Engine) (slotIndex : ℕ) (now : ℤ) : Engine :=
  if slotIndex < e.positions.length then e.closePosition slotIndex .MANUAL now else e

/-! ## The four-level cascade and the 23-point checklist
(src/app.js lines 1291–1468 and 1626–1761) -/

/-- The random draws and clock reads consumed by one analysis cycle.
The source calls `Math.random()` (asset pick, pattern pick, alignment,
signal quality, checklist draws) and `new Date().getHours()`; they are
injected here so the cycle is a deterministic function of the oracle. -/
structure Oracle where
  assetPick : ℕ
  patternPick : ℕ
  alignmentScore : ℚ
  signalQuality : ℚ
  checklistAlign : ℚ
  entryQuality : ℚ
  orderFlow : ℚ
  hour : ℕ
deriving DecidableEq, Repr

/-- Result of one analysis cycle (`null` is `none` at the call site):
a rejection at one of the four levels, a checklist rejection with its
score, or an approved position. -/
inductive CycleOutcome where
  | rejected (symbol : String) (level : ℕ) (reason : String)
  | checklistRejected (symbol : String) (reason : String) (score : ℕ)
  | approved (symbol : String) (position : Position)
deriving DecidableEq, Repr

/-- The fixed pattern list of `level2StructuralAnalysis`. -/
def patternList : List String :=
  ["Liquidity_Sweep", "Break_of_Block", "Anti_Order_Block", "Chain_Block",
   "Swing_Block", "Impulse_Block"]

/-- `level1SafetyGates(asset)` (src/app.js lines 1374–1403).  All
indicator comparisons go through the NaN-aware helpers: with no indicator
snapshot every field read is `undefined` and each comparison is false. -/
def Engine.level1SafetyGates (e : Engine) (asset : Asset) : Except String Unit :=
  let ind := e.dataEngine.getIndicators asset.symbol
  let rsi := ind.map (fun i => i.rsi)
  if jltB rsi (some 30) || jgtB rsi (some 70) then
    .error "RSI outside safe range"
  else if jltB (ind.map (fun i => i.currentVolume))
      (jmul (ind.map (fun i => i.avgVolume)) (some 0.5)) then
    .error "Insufficient volume"
  else if 3 ≤ e.riskManager.consecutiveLosses then
    .error "Max consecutive losses reached"
  else if jleB e.riskManager.getDailyDrawdown (some RiskManager.dailyLossLimit) then
    .error "Daily loss limit reached"
  else if jleB e.riskManager.getMonthlyDrawdown (some RiskManager.maxDrawdownAlert) then
    .error "Max drawdown alert triggered"
  else
    .ok ()

/-- `level2StructuralAnalysis(asset)` (src/app.js lines 1405–1423). -/
def Engine.level2StructuralAnalysis (e : Engine) (asset : Asset) (o : Oracle) :
    Except String (Direction × String) :=
  let ind := e.dataEngine.getIndicators asset.symbol
  let direction := if ind.map (fun i => i.trend) = some .bullish then Direction.LONG
    else Direction.SHORT
  let selectedPattern := patternList.getD (o.patternPick % patternList.length) ""
  if o.alignmentScore < 0.4 then .error "Insufficient timeframe alignment"
  else .ok (direction, selectedPattern)

/-- `level3RiskAssessment(asset, direction)` (src/app.js lines
1425–1441).  The risk/reward ratio is the fixed constant 2.5 in the
source, so its guard never fires. -/
def Engine.level3RiskAssessment (e : Engine) (o : Oracle) : Except String (Option ℚ) :=
  let positionSize := e.riskManager.calculatePositionSize
  let riskRewardRatio : ℚ := 2.5
  if riskRewardRatio < 2.0 then .error "Risk Reward ratio too low"
  else if o.signalQuality < 0.5 then .error "Entry signal quality insufficient"
  else .ok positionSize

/-- `level4SentimentCheck()` (src/app.js lines 1443–1450). -/
def Engine.level4SentimentCheck (e : Engine) : Except String Unit :=
  if e.fearGreedIndex < 20 || 80 < e.fearGreedIndex then .error "Extreme market sentiment"
  else .ok ()

/-- `selectAsset()` (src/app.js lines 1452–1468): filter out symbols with
open positions and pick one at random (both branches of the source pick
uniformly from the remaining assets). -/
def Engine.selectAsset (e : Engine) (o : Oracle) : Option Asset :=
  let availableAssets := e.dataEngine.assets.filter
    (fun asset => !(e.positions.any (fun pos => pos.symbol = asset.symbol)))
  if availableAssets.isEmpty then none
  else availableAssets.getD (o.assetPick % availableAssets.length)
    { symbol := "", name := "", price := 0, basePrice := 0 }

/-- `run23PointChecklist(asset, direction)` (src/app.js lines 1626–1761),
returning `(passed, score)`.  The `direction` argument is unused in the
source body; the per-check `details` array is display-only and omitted. -/
def Engine.run23PointChecklist (e : Engine) (asset : Asset) (direction : Direction)
    (o : Oracle) : Bool × ℕ :=
  let ind := e.dataEngine.getIndicators asset.symbol
  let rsi := ind.map (fun i => i.rsi)
  let vol := ind.map (fun i => i.volatility)
  let c1 := jgeB rsi (some 30) && jleB rsi (some 70)
  let c2 := jgeB (ind.map (fun i => i.currentVolume))
    (jmul (ind.map (fun i => i.avgVolume)) (some 1.0))
  let c3 := e.riskManager.consecutiveLosses < 2
  let c4 := jgtB e.riskManager.getDailyDrawdown (some (-3.0))
  let c5 := jgtB e.riskManager.getMonthlyDrawdown (some (-12.0))
  let c6 := jgtB vol (some 0.5) && jltB vol (some 5.0)
  let alignmentScore : ℕ := if 0.3 < o.checklistAlign then 4 else 2
  let c14 := 0.3 < o.entryQuality
  let c16 := 0.4 < o.orderFlow
  let currentExposure := e.positions.foldl (fun s pos => jadd s pos.size) (some 0)
  let c21 := jltB currentExposure (jmul e.riskManager.currentBalance (some 0.7))
  let c22 := (13 ≤ o.hour && o.hour ≤ 20) || (7 ≤ o.hour && o.hour ≤ 12)
  let c23 := 25 ≤ e.fearGreedIndex && e.fearGreedIndex ≤ 75
  let score :=
    (if c1 then 1 else 0) + (if c2 then 1 else 0) + (if c3 then 1 else 0) +
    (if c4 then 1 else 0) + (if c5 then 1 else 0) + (if c6 then 1 else 0) +
    alignmentScore + 2 + 1 +
    (if c14 then 1 else 0) + 1 + (if c16 then 1 else 0) + 1 +
    3 + (if c21 then 1 else 0) + (if c22 then 1 else 0) + (if c23 then 1 else 0)
  (20 ≤ score, score)

/-- The guard of `runAnalysisCycle` testing whether exactly one position
is open and it has not yet hit TP1
(`positions.length === 1 && !positions[0].tp1Hit`), on the position
list. -/
def slotTwoGatedList : List Position → Bool
  | [p] => !p.tp1Hit
  | _ => false

/-- The slot-2 gate on the engine's open-position list. -/
def Engine.slotTwoGated (e : Engine) : Bool :=
  slotTwoGatedList e.positions

/-- The post-guard body of `runAnalysisCycle`: the four levels, the
checklist and the position opening, with the analysis-state display flags
updated along the way (the transient `analyzing` values and the delayed
`setTimeout` reset to `waiting` are cosmetic and collapsed into the final
per-level value of the call). -/
def Engine.runCycleBody (e : Engine) (now : ℤ) (o : Oracle) : Option CycleOutcome × Engine :=
  match e.selectAsset o with
  | none => (none, e)
  | some asset =>
    match h1 : e.level1SafetyGates asset with
    | .error reason =>
      (some (.rejected asset.symbol 1 reason),
       { e with analysisState := { e.analysisState with level1 := .failed } })
    | .ok _ =>
      let e1 := { e with analysisState := { e.analysisState with level1 := .passed } }
      match e1.level2StructuralAnalysis asset o with
      | .error reason =>
        (some (.rejected asset.symbol 2 reason),
         { e1 with analysisState := { e1.analysisState with level2 := .failed } })
      | .ok (direction, pattern) =>
        let e2 := { e1 with analysisState := { e1.analysisState with level2 := .passed } }
        match e2.level3RiskAssessment o with
        | .error reason =>
          (some (.rejected asset.symbol 3 reason),
           { e2 with analysisState := { e2.analysisState with level3 := .failed } })
        | .ok _ =>
          let e3 := { e2 with analysisState := { e2.analysisState with level3 := .passed } }
          match e3.level4SentimentCheck with
          | .error reason =>
            (some (.rejected asset.symbol 4 reason),
             { e3 with analysisState := { e3.analysisState with level4 := .failed } })
          | .ok _ =>
            let e4 := { e3 with analysisState := { e3.analysisState with level4 := .passed } }
            let checklist := e4.run23PointChecklist asset direction o
            if !checklist.1 then
              (some (.checklistRejected asset.symbol
                 "Checklist score below threshold" checklist.2), e4)
            else
              let opened := e4.openPosition asset direction pattern now
              let position := { opened.2 with checklistScore := some checklist.2 }
              let e5 := { opened.1 with
                positions := opened.1.positions.dropLast ++ [position] }
              (some (.approved asset.symbol position), e5)

/-- `runAnalysisCycle()` (src/app.js lines 1291–1372).  `now` is the
`Date.now()` read used by the cadence guard.  Returns the cycle result
(`none` is the source's `null`) and the updated engine. -/
def Engine.runAnalysisCycle (e : Engine) (now : ℤ) (o : Oracle) : Option CycleOutcome × Engine :=
  if !e.isRunning then (none, e)
  else
    let ct := e.riskManager.canTrade
    let e1 := { e with riskManager := ct.2 }
    if !ct.1 then (none, e1)
    else if Engine.maxPositions ≤ e1.positions.length then (none, e1)
    else if e1.slotTwoGated then (none, e1)
    else if now - e1.lastAnalysisTime < 5000 then (none, e1)
    else
      let e2 := { e1 with lastAnalysisTime := now }
      e2.runCycleBody now o

/-! ## Specification-side definitions and reachability -/

/-- The ordering invariant exactly as the specification states it
(claim C2): for LONG `stopLoss < entryPrice < tp1 < tp2`, for SHORT the
mirrored strict ordering, for every open position. -/
def claimedOrderingB (p : Position) : Bool :=
  match p.direction with
  | .LONG =>
    decide (p.stopLoss < p.entryPrice) && decide (p.entryPrice < p.tp1) &&
      decide (p.tp1 < p.tp2)
  | .SHORT =>
    decide (p.entryPrice < p.stopLoss) && decide (p.tp1 < p.entryPrice) &&
      decide (p.tp2 < p.tp1)

/-- The ordering invariant the code actually maintains: the strict chain
holds while `tp1Hit` is false; once TP1 is hit the stop has been relocated
to breakeven, so `stopLoss = entryPrice` while the entry/tp1/tp2 part of
the chain stays strict. -/
def posInv (p : Position) : Prop :=
  (p.direction = .LONG →
    p.entryPrice < p.tp1 ∧ p.tp1 < p.tp2 ∧
    (p.tp1Hit = true → p.stopLoss = p.entryPrice) ∧
    (p.tp1Hit = false → p.stopLoss < p.entryPrice)) ∧
  (p.direction = .SHORT →
    p.tp1 < p.entryPrice ∧ p.tp2 < p.tp1 ∧
    (p.tp1Hit = true → p.stopLoss = p.entryPrice) ∧
    (p.tp1Hit = false → p.entryPrice < p.stopLoss))

/-- Engine states reachable through the position-mutating operations
named by claim C2: any state with no open positions, market-data updates
(`MarketDataFeed` mutates prices between engine steps; the generated
price of an asset opened against is always positive, since
`generateCandle` clamps prices to at least 70% of the positive base
price), `openPosition` under the engine's at-most-two guard, and
`updatePositions`. -/
inductive Reach : Engine → Prop where
  | init (e : Engine) : e.positions = [] → Reach e
  | market (e : Engine) (d : DataEngine) : Reach e → Reach { e with dataEngine := d }
  | openStep (e : Engine) (a : Asset) (dir : Direction) (pat : String) (now : ℤ) :
      Reach e → 0 < a.price → e.positions.length < Engine.maxPositions →
      Reach (e.openPosition a dir pat now).1
  | update (e : Engine) (now : ℤ) : Reach e → Reach (e.updatePositions now)

/-- The `RiskManager` operations an external caller can perform; used to
state that nothing re-enables trading once the kill switch has fired
(claim C3). -/
inductive RMOp where
  | record (profit : Option ℚ)
  | canTradeCall
  | resetD
  | resetW
  | resetM
deriving DecidableEq, Repr

/-- Apply one `RiskManager` operation. -/
def applyRMOp (r : RiskManager) : RMOp → RiskManager
  | .record p => r.recordTrade p
  | .canTradeCall => r.canTrade.2
  | .resetD => r.resetDaily
  | .resetW => r.resetWeekly
  | .resetM => r.resetMonthly

/-- Apply a sequence of `RiskManager` operations. -/
def applyRMOps (r : RiskManager) (ops : List RMOp) : RiskManager :=
  ops.foldl applyRMOp r

/-! ## Concrete scenario states used by the counterexamples and
witnesses -/

/-- Placeholder position for list default reads in theorem statements. -/
def dummyPosition : Position :=
  { id := 0, slot := 0, symbol := "", direction := .LONG, pattern := ""
    entryPrice := 0, stopLoss := 0, tp1 := 0, tp2 := 0, size := none
    tp1Hit := false, openTime := 0, pnl := none, checklistScore := none }

/-- A concrete instrument at price 100. -/
def btcAsset : Asset :=
  { symbol := "BTC", name := "Bitcoin", price := 100, basePrice := 100 }

/-- A second concrete instrument at price 200. -/
def ethAsset : Asset :=
  { symbol := "ETH", name := "Ethereum", price := 200, basePrice := 200 }

/-- A fresh running engine over the two instruments with balance 10000
(the `TradingEngine` constructor state, with `start()` called). -/
def engine0 : Engine :=
  { dataEngine := { assets := [btcAsset, ethAsset], indicators := [] }
    riskManager := mkRiskManager (some 10000)
    positions := []
    closedTrades := []
    isRunning := true
    analysisState := { level1 := .waiting, level2 := .waiting
                       level3 := .waiting, level4 := .waiting }
    fearGreedIndex := 50
    lastAnalysisTime := 0 }

/-- Market-data price mutation (`generateCandle` assigns
`asset.price`): set one symbol's price. -/
def DataEngine.setPrice (d : DataEngine) (symbol : String) (p : ℚ) : DataEngine :=
  { d with assets :=
      d.assets.map fun a => if a.symbol = symbol then { a with price := p } else a }

/-- Engine after opening a LONG BTC position at price 100
(entry 100.05, stop 99.0495, tp1 100.55025, tp2 101.2506, size 50). -/
def c2e1 : Engine := (engine0.openPosition btcAsset .LONG "Liquidity_Sweep" 0).1

/-- BTC price moved to 100.6, between tp1 and tp2 of the open position. -/
def c2e2 : Engine := { c2e1 with dataEngine := c2e1.dataEngine.setPrice "BTC" 100.6 }

/-- After one `updatePositions` tick at price 100.6: TP1 has been hit and
the stop relocated to the entry price. -/
def c2e3 : Engine := c2e2.updatePositions 1

/-- The literal BTC position stored in `c2e1`/`c2e2`. -/
def c4p0 : Position :=
  { id := 0, slot := 1, symbol := "BTC", direction := .LONG
    pattern := "Liquidity_Sweep", entryPrice := 100.05, stopLoss := 99.0495
    tp1 := 100.55025, tp2 := 101.2506, size := some 50, tp1Hit := false
    openTime := 0, pnl := some 0, checklistScore := none }

/-- Engine after additionally opening a SHORT ETH position at price 200
while the BTC position has TP1 hit (entry 199.9, stop 201.899,
tp1 198.9005, tp2 197.5012). -/
def c4e3 : Engine := (c2e3.openPosition ethAsset .SHORT "Break_of_Block" 2).1

/-- Prices moved so that in the next tick the BTC position (index 0) hits
its relocated stop while the ETH position (index 1) is at a price at or
below its tp1 and strictly inside its (tp2, stopLoss) band. -/
def c4e4 : Engine :=
  { c4e3 with dataEngine := (c4e3.dataEngine.setPrice "BTC" 100).setPrice "ETH" 198.5 }

/-- The tick: the BTC close at index 0 makes `forEach` skip index 1, so
the ETH position is left unevaluated. -/
def c4e5 : Engine := c4e4.updatePositions 3

/-- The literal BTC position stored in `c4e4` (TP1 hit, stop at entry). -/
def btcPosHit : Position :=
  { c4p0 with tp1Hit := true, stopLoss := 100.05, pnl := some (550 / 2001) }

/-- The literal ETH position stored in `c4e4`. -/
def ethPos : Position :=
  { id := 2, slot := 2, symbol := "ETH", direction := .SHORT
    pattern := "Break_of_Block", entryPrice := 199.9, stopLoss := 201.899
    tp1 := 198.9005, tp2 := 197.5012, size := some 50.000625, tp1Hit := false
    openTime := 2, pnl := some 0, checklistScore := none }

/-- Fresh 10000 ledger after one −350 trade: daily drawdown −3.5%. -/
def c3r1 : RiskManager := (mkRiskManager (some 10000)).recordTrade (some (-350))

/-- The ledger after the kill switch has fired and all three baseline
resets have been applied. -/
def c3r2 : RiskManager := c3r1.canTrade.2.resetDaily.resetWeekly.resetMonthly

/-- Fresh 10000 ledger after three −50 trades. -/
def c6r3 : RiskManager :=
  (((mkRiskManager (some 10000)).recordTrade (some (-50))).recordTrade
    (some (-50))).recordTrade (some (-50))

/-- Fresh 10000 ledger after one −10000 trade: balance exactly 0, weekly
drawdown −100%. -/
def c7r0 : RiskManager := (mkRiskManager (some 10000)).recordTrade (some (-10000))

/-- A position occupying slot 1 of a two-position engine. -/
def c9p1 : Position := { c4p0 with id := 10, slot := 1, symbol := "BTC" }

/-- A position occupying slot 2 of a two-position engine. -/
def c9p2 : Position := { c4p0 with id := 11, slot := 2, symbol := "ETH" }

/-- Engine with both slots full. -/
def c9eng : Engine := { engine0 with positions := [c9p1, c9p2] }

/-- Engine where only the slot-2 position remains open. -/
def c9eng2 : Engine := { engine0 with positions := [c9p2] }

/-- A concrete oracle (the draws are irrelevant to the guard claims). -/
def dummyOracle : Oracle :=
  { assetPick := 0, patternPick := 0, alignmentScore := 0, signalQuality := 0
    checklistAlign := 0, entryQuality := 0, orderFlow := 0, hour := 0 }

/-- A two-candle history with closes 1 and 3 (used as RSI witness input). -/
def c8hist : List Candle :=
  [{ defaultCandle with close := 1 }, { defaultCandle with close := 3 }]


/-- The ledger state right after the kill switch has fired on `c3r1`. -/
def c3disabled : RiskManager := c3r1.canTrade.2

/-- The literal ledger stored in `c2e3` (balance 10000.125 after the TP1
partial profit of the BTC position). -/
def c2rmAfter : RiskManager :=
  { initialBalance := some 10000, currentBalance := some 10000.125
    dailyStartBalance := some 10000, weeklyStartBalance := some 10000
    monthlyStartBalance := some 10000, consecutiveLosses := 0, tradingEnabled := true }

/-- The TP1-trigger situation of claim C4 for either direction: the
position has not hit TP1 and the instrument price has crossed `tp1` in
the favorable direction while staying strictly inside the `tp2` and
stop-loss bounds, with `tp1` strictly beyond the entry. -/
def tp1Ready (p : Position) (price : ℚ) : Prop :=
  p.tp1Hit = false ∧
  ((p.direction = .LONG ∧ p.tp1 ≤ price ∧ price < p.tp2 ∧ p.stopLoss < price ∧
      p.entryPrice < p.tp1) ∨
   (p.direction = .SHORT ∧ price ≤ p.tp1 ∧ p.tp2 < price ∧ price < p.stopLoss ∧
      p.tp1 < p.entryPrice))

/-- The state of a position after its TP1 step in `updatePositions`:
P&L recomputed, `tp1Hit` marked, stop relocated to breakeven. -/
def tp1Upd (p : Position) (price : ℚ) : Position :=
  { p with pnl := pnlOf p price, tp1Hit := true, stopLoss := p.entryPrice }

/-- Two-position engine where during the next tick the BTC position at
index 0 triggers nothing (price 100.6 is strictly inside its bounds and
TP1 is already hit) while the SHORT ETH position at index 1 is at a
price at/below its tp1. -/
def c4b : Engine :=
  { c4e3 with dataEngine := c4e3.dataEngine.setPrice "ETH" 198.5 }

set_option maxHeartbeats 1000000

/-! ## Helper lemmas -/

/-- `canTrade` on a disabled ledger returns false without touching the state. -/
theorem canTrade_of_not_enabled (r : RiskManager) (h : r.tradingEnabled = false) :
    r.canTrade = (false, r) := by
  simp [RiskManager.canTrade, h]

/-- No `RiskManager` operation re-enables trading. -/
theorem applyRMOp_keeps_disabled (r : RiskManager) (op : RMOp)
    (h : r.tradingEnabled = false) : (applyRMOp r op).tradingEnabled = false := by
  cases op <;>
    simp [applyRMOp, RiskManager.recordTrade, RiskManager.resetDaily,
      RiskManager.resetWeekly, RiskManager.resetMonthly, canTrade_of_not_enabled r h, h]

/-- No sequence of `RiskManager` operations re-enables trading. -/
theorem applyRMOps_keeps_disabled (ops : List RMOp) :
    ∀ r : RiskManager, r.tradingEnabled = false →
      (applyRMOps r ops).tradingEnabled = false := by
  induction ops with
  | nil => intro r h; exact h
  | cons op t ih =>
    intro r h
    exact ih (applyRMOp r op) (applyRMOp_keeps_disabled r op h)

/-! ## Claim theorems: RiskManager claims -/

/-- C3 (amended): once `canTrade()` observes daily drawdown ≤ −3.0% or
monthly drawdown ≤ −15.0% on an enabled ledger it returns false and
clears `tradingEnabled`; afterwards every `canTrade()` call returns
false, and no sequence of `RiskManager` operations — the baseline resets
included, which rebase baselines but never touch `tradingEnabled` —
makes it return true again. -/
theorem c3_kill_switch :
    (∀ r : RiskManager, r.tradingEnabled = true →
      (jleB r.getDailyDrawdown (some RiskManager.dailyLossLimit) = true ∨
        jleB r.getMonthlyDrawdown (some RiskManager.monthlyKillSwitch) = true) →
      r.canTrade.1 = false ∧ r.canTrade.2.tradingEnabled = false) ∧
    (∀ (r : RiskManager) (ops : List RMOp), r.tradingEnabled = false →
      (applyRMOps r ops).tradingEnabled = false ∧
      (applyRMOps r ops).canTrade.1 = false) := by
  constructor
  · intro r hen hdd
    rcases hdd with h | h
    · simp [RiskManager.canTrade, hen, h]
    · by_cases hd : jleB r.getDailyDrawdown (some RiskManager.dailyLossLimit) <;>
        simp [RiskManager.canTrade, hen, hd, h]
  · intro r ops h
    have hdis := applyRMOps_keeps_disabled ops r h
    exact ⟨hdis, by rw [canTrade_of_not_enabled _ hdis]⟩

/-- Witness for C3 at a concrete input: a −350 trade on a fresh 10000
ledger breaches the daily limit, the kill switch fires, and after all
three baseline resets trading is still disabled. -/
theorem c3_kill_switch_witness :
    (c3r1.canTrade.1 = false ∧ c3r1.canTrade.2.tradingEnabled = false) ∧
    ((applyRMOps c3disabled [RMOp.resetD, RMOp.resetW, RMOp.resetM]).tradingEnabled
        = false ∧
      (applyRMOps c3disabled [RMOp.resetD, RMOp.resetW, RMOp.resetM]).canTrade.1
        = false) := by
  have hen : c3r1.tradingEnabled = true := rfl
  have hdd : jleB c3r1.getDailyDrawdown (some RiskManager.dailyLossLimit) = true := by
    norm_num [c3r1, mkRiskManager, RiskManager.recordTrade, RiskManager.getDailyDrawdown,
      jadd, jsub, jdiv, jmul, jleB, RiskManager.dailyLossLimit]
  have hdis : c3disabled.tradingEnabled = false := by
    have := (c3_kill_switch.1 c3r1 hen (Or.inl hdd)).2
    exact this
  exact ⟨c3_kill_switch.1 c3r1 hen (Or.inl hdd),
    c3_kill_switch.2 c3disabled [RMOp.resetD, RMOp.resetW, RMOp.resetM] hdis⟩

/-- C3's claim as stated is false at a concrete input: after the kill
switch fires on the −3.5% ledger `c3r1`, applying `resetDaily`,
`resetWeekly` and `resetMonthly` does not restore `tradingEnabled`, and
`canTrade()` still returns false. -/
theorem c3_reset_does_not_restore_cex :
    c3r1.canTrade.1 = false ∧ c3r1.canTrade.2.tradingEnabled = false ∧
    c3r2.tradingEnabled = false ∧ c3r2.canTrade.1 = false := by
  refine ⟨?_, ?_, ?_, ?_⟩ <;>
    norm_num [c3r2, c3r1, mkRiskManager, RiskManager.recordTrade, RiskManager.canTrade,
      RiskManager.getDailyDrawdown, RiskManager.getMonthlyDrawdown, RiskManager.resetDaily,
      RiskManager.resetWeekly, RiskManager.resetMonthly, jadd, jsub, jdiv, jmul,
      jleB, jltB, RiskManager.dailyLossLimit, RiskManager.monthlyKillSwitch]

/-- C6: on a fresh 10000 ledger, three −50 trades leave a consecutive-loss
streak of 3; `canTrade()` then returns false while `tradingEnabled` stays
true (the drawdown is only −1.5%, above every disabling limit), and one
further trade with non-negative P&L resets the streak to zero. -/
theorem c6_consecutive_losses (q : ℚ) (hq : 0 ≤ q) :
    c6r3.consecutiveLosses = 3 ∧
    c6r3.canTrade.1 = false ∧
    c6r3.canTrade.2.tradingEnabled = true ∧
    c6r3.getDailyDrawdown = some (-1.5) ∧
    (c6r3.recordTrade (some q)).consecutiveLosses = 0 := by
  refine ⟨?_, ?_, ?_, ?_, ?_⟩
  case _ => rfl
  case _ =>
    norm_num [c6r3, mkRiskManager, RiskManager.recordTrade, RiskManager.canTrade,
      RiskManager.getDailyDrawdown, RiskManager.getMonthlyDrawdown, jadd, jsub, jdiv, jmul,
      jleB, jltB, RiskManager.dailyLossLimit, RiskManager.monthlyKillSwitch]
  case _ =>
    norm_num [c6r3, mkRiskManager, RiskManager.recordTrade, RiskManager.canTrade,
      RiskManager.getDailyDrawdown, RiskManager.getMonthlyDrawdown, jadd, jsub, jdiv, jmul,
      jleB, jltB, RiskManager.dailyLossLimit, RiskManager.monthlyKillSwitch]
  case _ =>
    norm_num [c6r3, mkRiskManager, RiskManager.recordTrade, RiskManager.getDailyDrawdown,
      jadd, jsub, jdiv, jmul, jltB]
  case _ =>
    simp [RiskManager.recordTrade, jltB, not_lt.2 hq]

/-- Witness for C6 at the concrete non-negative P&L 0. -/
theorem c6_consecutive_losses_witness :
    (0 : ℚ) ≤ 0 ∧
    (c6r3.consecutiveLosses = 3 ∧
      c6r3.canTrade.1 = false ∧
      c6r3.canTrade.2.tradingEnabled = true ∧
      c6r3.getDailyDrawdown = some (-1.5) ∧
      (c6r3.recordTrade (some 0)).consecutiveLosses = 0) :=
  ⟨le_refl 0, c6_consecutive_losses 0 (le_refl 0)⟩

/-- C7 (amended): for every ledger with a numeric balance `b`,
`calculatePositionSize()` returns exactly `b · 0.5%` when the weekly
drawdown is above −8%, and exactly 70% of that (`b · 0.35%`) when it is
at or below −8% — the reduced size being strictly smaller than the base
size whenever the balance is positive (at balance 0 the two coincide, so
the claim's unconditional strict inequality fails). -/
theorem c7_position_size (r : RiskManager) (b : ℚ) (hb : r.currentBalance = some b) :
    (jleB r.getWeeklyDrawdown (some RiskManager.weeklyDrawdownLimit) = false →
      r.calculatePositionSize = some (b * (0.5 / 100))) ∧
    (jleB r.getWeeklyDrawdown (some RiskManager.weeklyDrawdownLimit) = true →
      r.calculatePositionSize = some (b * (0.5 / 100) * 0.7) ∧
      (0 < b → b * (0.5 / 100) * 0.7 < b * (0.5 / 100))) := by
  constructor
  · intro h
    simp [RiskManager.calculatePositionSize, h, hb, jmul,
      RiskManager.positionRiskPercentage]
  · intro h
    refine ⟨?_, fun hb0 => by nlinarith⟩
    simp [RiskManager.calculatePositionSize, h, hb, jmul,
      RiskManager.positionRiskPercentage]

/-- Witness for C7 on the fresh 10000 ledger. -/
theorem c7_position_size_witness :
    (jleB (mkRiskManager (some 10000)).getWeeklyDrawdown
        (some RiskManager.weeklyDrawdownLimit) = false →
      (mkRiskManager (some 10000)).calculatePositionSize =
        some (10000 * (0.5 / 100))) ∧
    (jleB (mkRiskManager (some 10000)).getWeeklyDrawdown
        (some RiskManager.weeklyDrawdownLimit) = true →
      (mkRiskManager (some 10000)).calculatePositionSize =
        some (10000 * (0.5 / 100) * 0.7) ∧
      ((0 : ℚ) < 10000 → (10000 : ℚ) * (0.5 / 100) * 0.7 < 10000 * (0.5 / 100))) :=
  c7_position_size (mkRiskManager (some 10000)) 10000 rfl

/-- C7's claim as stated is false at a concrete input: at balance 0
(weekly drawdown −100% ≤ −8%) the reduced size 0 is not strictly less
than the base size 0. -/
theorem c7_zero_balance_cex :
    jleB c7r0.getWeeklyDrawdown (some RiskManager.weeklyDrawdownLimit) = true ∧
    c7r0.currentBalance = some 0 ∧
    c7r0.calculatePositionSize = some 0 ∧
    jltB c7r0.calculatePositionSize
      (jmul c7r0.currentBalance
        (some (RiskManager.positionRiskPercentage / 100))) = false := by
  refine ⟨?_, ?_, ?_, ?_⟩ <;>
    norm_num [c7r0, mkRiskManager, RiskManager.recordTrade, RiskManager.calculatePositionSize,
      RiskManager.getWeeklyDrawdown, jadd, jsub, jdiv, jmul, jleB, jltB,
      RiskManager.weeklyDrawdownLimit, RiskManager.positionRiskPercentage]

/-- Adding NaN/undefined to any balance yields NaN. -/
theorem jadd_none (x : Option ℚ) : jadd x none = none := by cases x <;> rfl

/-- One `updatePositions` call on a single open position is one callback
evaluation at index 0. -/
theorem updatePositions_singleton (e : Engine) (p : Position) (now : ℤ)
    (hpos : e.positions = [p]) :
    e.updatePositions now = e.processAtIndex 0 now := by
  simp [Engine.updatePositions, hpos, show List.range 1 = [0] from rfl]

/-- One `updatePositions` call on two open positions: the callback runs at
index 0, and runs at index 1 only if that index still exists afterwards
(the ECMAScript `forEach`/`splice` interaction). -/
theorem updatePositions_pair (e : Engine) (p0 p1 : Position) (now : ℤ)
    (hpos : e.positions = [p0, p1]) :
    e.updatePositions now =
      (if 1 < (e.processAtIndex 0 now).positions.length
       then (e.processAtIndex 0 now).processAtIndex 1 now
       else e.processAtIndex 0 now) := by
  simp [Engine.updatePositions, hpos, show List.range 2 = [0, 1] from rfl]

/-- Callback evaluation on a single LONG position whose price is in
`[tp1, tp2)` and above the entry: TP1 fires, the 50%-of-size profit is
recorded, the stop moves to breakeven, and the position stays open. -/
theorem processAtIndex_singleton_long_tp1 (e : Engine) (p : Position) (now : ℤ)
    (hpos : e.positions = [p]) (hdir : p.direction = .LONG) (hhit : p.tp1Hit = false)
    (htp1 : p.tp1 ≤ e.dataEngine.priceOf p.symbol)
    (htp2 : e.dataEngine.priceOf p.symbol < p.tp2)
    (hentry : p.entryPrice < p.tp1) :
    e.processAtIndex 0 now =
      { e with
        positions := [{ p with
          pnl := pnlOf p (e.dataEngine.priceOf p.symbol),
          tp1Hit := true, stopLoss := p.entryPrice }],
        riskManager :=
          e.riskManager.recordTrade (jmul (jmul p.size (some 0.5)) (some 0.005)) } := by
  have hnotp2 : ¬ (p.tp2 ≤ e.dataEngine.priceOf p.symbol) := not_le.2 htp2
  have hnotsl : ¬ (e.dataEngine.priceOf p.symbol ≤ p.entryPrice) :=
    not_le.2 (lt_of_lt_of_le hentry htp1)
  simp [Engine.processAtIndex, tp1Check, tp2Check, slCheck, hpos, hdir, hhit, htp1,
    hnotp2, hnotsl]

/-- Mirrored TP1 step for a single SHORT position. -/
theorem processAtIndex_singleton_short_tp1 (e : Engine) (p : Position) (now : ℤ)
    (hpos : e.positions = [p]) (hdir : p.direction = .SHORT) (hhit : p.tp1Hit = false)
    (htp1 : e.dataEngine.priceOf p.symbol ≤ p.tp1)
    (htp2 : p.tp2 < e.dataEngine.priceOf p.symbol)
    (hentry : p.tp1 < p.entryPrice) :
    e.processAtIndex 0 now =
      { e with
        positions := [{ p with
          pnl := pnlOf p (e.dataEngine.priceOf p.symbol),
          tp1Hit := true, stopLoss := p.entryPrice }],
        riskManager :=
          e.riskManager.recordTrade (jmul (jmul p.size (some 0.5)) (some 0.005)) } := by
  have hnotp2 : ¬ (e.dataEngine.priceOf p.symbol ≤ p.tp2) := not_le.2 htp2
  have hnotsl : ¬ (p.entryPrice ≤ e.dataEngine.priceOf p.symbol) :=
    not_le.2 (lt_of_le_of_lt htp1 hentry)
  simp [Engine.processAtIndex, tp1Check, tp2Check, slCheck, hpos, hdir, hhit, htp1,
    hnotp2, hnotsl]

/-- Callback evaluation at index 0 of a two-position engine whose first
position (LONG, TP1 already hit) is at or below its stop and below tp2:
the first position is closed and only the second remains. -/
theorem processAtIndex_pair_first_closes (e : Engine) (p0 p1 : Position) (now : ℤ)
    (hpos : e.positions = [p0, p1]) (hdir : p0.direction = .LONG) (hhit : p0.tp1Hit = true)
    (hsl : e.dataEngine.priceOf p0.symbol ≤ p0.stopLoss)
    (htp2 : e.dataEngine.priceOf p0.symbol < p0.tp2) :
    (e.processAtIndex 0 now).positions = [p1] := by
  have hnotp2 : ¬ (p0.tp2 ≤ e.dataEngine.priceOf p0.symbol) := not_le.2 htp2
  simp [Engine.processAtIndex, tp1Check, tp2Check, slCheck, Engine.closePosition,
    hpos, hdir, hhit, hsl, hnotp2]

/-- Callback evaluation at index 0 of a two-position engine leaves the
second position untouched in every case: afterwards the array is
`[p1]` with exactly one trade recorded, empty, or `[q, p1]`. -/
theorem processAtIndex_pair_cases (e : Engine) (p0 p1 : Position) (now : ℤ)
    (hpos : e.positions = [p0, p1]) :
    ((e.processAtIndex 0 now).positions = [p1] ∧
      ∃ t, (e.processAtIndex 0 now).closedTrades = e.closedTrades ++ [t]) ∨
    (e.processAtIndex 0 now).positions = [] ∨
    (∃ q, (e.processAtIndex 0 now).positions = [q, p1]) := by
  simp only [Engine.processAtIndex, hpos, List.getElem?_cons_zero, List.set_cons_zero]
  split_ifs with h1 h2 h3 <;>
    simp [Engine.closePosition]

/-- When the index-0 callback of a two-position `updatePositions` call
closes the first position, the call ends there: the second position is
not evaluated and survives unchanged, with exactly one trade appended. -/
theorem updatePositions_pair_skip (e : Engine) (p0 p1 : Position) (now : ℤ)
    (hpos : e.positions = [p0, p1])
    (hclosed : (e.processAtIndex 0 now).positions.length = 1) :
    (e.updatePositions now).positions = [p1] ∧
    (e.updatePositions now).closedTrades.length = e.closedTrades.length + 1 := by
  rw [updatePositions_pair e p0 p1 now hpos, hclosed]
  simp only [lt_irrefl, if_false]
  rcases processAtIndex_pair_cases e p0 p1 now hpos with ⟨h1, t, h2⟩ | h | ⟨q, h⟩
  · exact ⟨h1, by rw [h2]; simp⟩
  · rw [h] at hclosed; simp at hclosed
  · rw [h] at hclosed; simp at hclosed

/-! ## Evaluation of the concrete scenario states -/

theorem c2e2_positions : c2e2.positions = [c4p0] := by
  norm_num [c2e2, c2e1, engine0, Engine.openPosition, mkRiskManager,
    RiskManager.calculatePositionSize, RiskManager.getWeeklyDrawdown, jmul, jdiv, jsub, jleB,
    RiskManager.positionRiskPercentage, RiskManager.weeklyDrawdownLimit,
    RiskManager.stopLossPercentage, btcAsset, c4p0, DataEngine.setPrice]

theorem c2e2_price : c2e2.dataEngine.priceOf "BTC" = 100.6 := by
  norm_num [c2e2, c2e1, engine0, Engine.openPosition, DataEngine.setPrice, DataEngine.priceOf,
    DataEngine.getAsset, btcAsset, ethAsset, List.find?]

theorem c2e2_rm : c2e2.riskManager = mkRiskManager (some 10000) := rfl

theorem c2e3_eq : c2e3 = { c2e2 with positions := [btcPosHit], riskManager := c2rmAfter } := by
  have hpos := c2e2_positions
  have hsym : c4p0.symbol = "BTC" := rfl
  have h1 : c2e3 = c2e2.processAtIndex 0 1 := updatePositions_singleton c2e2 c4p0 1 hpos
  rw [h1, processAtIndex_singleton_long_tp1 c2e2 c4p0 1 hpos rfl rfl
    (by rw [hsym, c2e2_price]; norm_num [c4p0])
    (by rw [hsym, c2e2_price]; norm_num [c4p0])
    (by norm_num [c4p0])]
  congr 1
  · rw [c2e2_rm]
    norm_num [RiskManager.recordTrade, mkRiskManager, c2rmAfter, c4p0, jmul, jadd, jltB]
  · rw [hsym, c2e2_price]
    norm_num [btcPosHit, c4p0, pnlOf, jmul, jdiv]

theorem strBTCneqETH : ("BTC" : String) ≠ "ETH" := by decide

theorem strETHneqBTC : ("ETH" : String) ≠ "BTC" := by decide

theorem shortNeqLong : Direction.SHORT ≠ Direction.LONG := by decide

theorem c2e2_dataEngine :
    c2e2.dataEngine =
      { assets := [{ symbol := "BTC", name := "Bitcoin", price := 100.6, basePrice := 100 },
                   ethAsset], indicators := [] } := by
  norm_num [c2e2, c2e1, engine0, Engine.openPosition, DataEngine.setPrice, btcAsset, ethAsset,
    strETHneqBTC]

theorem c4e3_dataEngine : c4e3.dataEngine = c2e2.dataEngine := by
  show c2e3.dataEngine = c2e2.dataEngine
  rw [c2e3_eq]

theorem c4e4_dataEngine :
    c4e4.dataEngine =
      { assets := [{ symbol := "BTC", name := "Bitcoin", price := 100, basePrice := 100 },
                   { symbol := "ETH", name := "Ethereum", price := 198.5, basePrice := 200 }],
        indicators := [] } := by
  show (c4e3.dataEngine.setPrice "BTC" 100).setPrice "ETH" 198.5 = _
  rw [c4e3_dataEngine, c2e2_dataEngine]
  norm_num [DataEngine.setPrice, ethAsset, strETHneqBTC, strBTCneqETH]

theorem c4e4_priceBTC : c4e4.dataEngine.priceOf "BTC" = 100 := by
  rw [c4e4_dataEngine]
  norm_num [DataEngine.priceOf, DataEngine.getAsset, List.find?]

theorem c4e4_priceETH : c4e4.dataEngine.priceOf "ETH" = 198.5 := by
  rw [c4e4_dataEngine]
  norm_num [DataEngine.priceOf, DataEngine.getAsset, List.find?, strBTCneqETH]

theorem c4e4_positions : c4e4.positions = [btcPosHit, ethPos] := by
  have h3 : c4e3.positions = c2e3.positions ++
      [(c2e3.openPosition ethAsset .SHORT "Break_of_Block" 2).2] := rfl
  have hpos2 : c2e3.positions = [btcPosHit] := by rw [c2e3_eq]
  have hrm : c2e3.riskManager = c2rmAfter := by rw [c2e3_eq]
  show c4e3.positions = _
  rw [h3, hpos2]
  norm_num [Engine.openPosition, hrm, hpos2, c2rmAfter, RiskManager.calculatePositionSize,
    RiskManager.getWeeklyDrawdown, jmul, jdiv, jsub, jleB,
    RiskManager.positionRiskPercentage, RiskManager.weeklyDrawdownLimit,
    RiskManager.stopLossPercentage, ethAsset, ethPos, shortNeqLong]

theorem c4proc_positions : (c4e4.processAtIndex 0 3).positions = [ethPos] := by
  refine processAtIndex_pair_first_closes c4e4 btcPosHit ethPos 3 c4e4_positions rfl rfl ?_ ?_
  · rw [show btcPosHit.symbol = "BTC" from rfl, c4e4_priceBTC]
    norm_num [btcPosHit, c4p0]
  · rw [show btcPosHit.symbol = "BTC" from rfl, c4e4_priceBTC]
    norm_num [btcPosHit, c4p0]

theorem c4e5_facts : c4e5.positions = [ethPos] ∧
    c4e5.closedTrades.length = c4e4.closedTrades.length + 1 :=
  updatePositions_pair_skip c4e4 btcPosHit ethPos 3 c4e4_positions
    (by rw [c4proc_positions]; rfl)

/-- `manualClosePosition(0)` on a single open position: the `MANUAL`
branch leaves `finalPnl` undefined, so the recorded trade carries no
P&L and the balance becomes NaN. -/
theorem manualClose_occupied (e : Engine) (p : Position) (now : ℤ)
    (hpos : e.positions = [p]) :
    e.manualClosePosition 0 now =
      { e with
        riskManager :=
          { e.riskManager with currentBalance := none, consecutiveLosses := 0 }
        closedTrades := e.closedTrades ++
          [{ pos := p, closePrice := e.dataEngine.priceOf p.symbol, closeTime := now,
             closeReason := .MANUAL, finalPnl := none }]
        positions := [] } := by
  simp [Engine.manualClosePosition, hpos, Engine.closePosition, RiskManager.recordTrade,
    jltB, jadd_none]

/-- `manualClosePosition` on an empty slot index is a no-op. -/
theorem manualClose_out_of_range (e : Engine) (i : ℕ) (now : ℤ)
    (h : e.positions.length ≤ i) : e.manualClosePosition i now = e := by
  simp [Engine.manualClosePosition, not_lt.2 h]

/-! ## Claim theorems: engine claims -/

/-- C1: the claim says `manualClosePosition(i)` on an occupied slot adds
the mark-to-market P&L to the balance.  The source has no `MANUAL` branch
for `finalPnl`, so it records an undefined P&L: on the concrete reachable
engine `c2e3` (one open LONG BTC position, balance 10000.125, price
100.6) the manual close makes the balance NaN (`none` here) instead of
adding the mark-to-market P&L, appends one `MANUAL` ClosedTrade whose
realized P&L is undefined, and removes the position; a call with an
out-of-range slot index leaves the engine unchanged, as claimed. -/
theorem c1_manual_close_undefined_pnl :
    (c2e3.manualClosePosition 0 5).riskManager.currentBalance = none ∧
    ((c2e3.manualClosePosition 0 5).closedTrades.map fun t => t.closeReason) =
      [CloseReason.MANUAL] ∧
    ((c2e3.manualClosePosition 0 5).closedTrades.map fun t => t.finalPnl) = [none] ∧
    (c2e3.manualClosePosition 0 5).positions = [] ∧
    c2e3.manualClosePosition 5 7 = c2e3 := by
  have hpos : c2e3.positions = [btcPosHit] := by rw [c2e3_eq]
  rw [manualClose_occupied c2e3 btcPosHit 5 hpos]
  refine ⟨rfl, ?_, ?_, rfl, manualClose_out_of_range c2e3 5 7 (by rw [hpos]; norm_num)⟩
  · have : c2e3.closedTrades = [] := by rw [c2e3_eq]; rfl
    simp [this]
  · have : c2e3.closedTrades = [] := by rw [c2e3_eq]; rfl
    simp [this]

/-- The live-P&L write-back does not affect the ordering invariant. -/
theorem posInv_pnl (p : Position) (v : Option ℚ) (h : posInv p) :
    posInv { p with pnl := v } := by
  simpa [posInv] using h

/-- The TP1 step (mark hit, stop to breakeven) preserves the invariant. -/
theorem posInv_tp1Step (p : Position) (h : posInv p) :
    posInv { p with tp1Hit := true, stopLoss := p.entryPrice } := by
  simp [posInv] at h ⊢
  exact ⟨fun hd => ⟨(h.1 hd).1, (h.1 hd).2.1⟩, fun hd => ⟨(h.2 hd).1, (h.2 hd).2.1⟩⟩

/-- `closePosition` only removes positions. -/
theorem mem_closePosition (e : Engine) (i : ℕ) (r : CloseReason) (now : ℤ) (q : Position)
    (hq : q ∈ (e.closePosition i r now).positions) : q ∈ e.positions := by
  simp only [Engine.closePosition] at hq
  rcases hcase : e.positions[i]? with _ | p
  · rw [hcase] at hq
    exact hq
  · rw [hcase] at hq
    exact List.mem_of_mem_eraseIdx hq

/-- One callback evaluation of `updatePositions` preserves the ordering
invariant of every surviving position. -/
theorem posInv_processAtIndex (st : Engine) (k : ℕ) (now : ℤ)
    (h : ∀ p ∈ st.positions, posInv p) :
    ∀ q ∈ (st.processAtIndex k now).positions, posInv q := by
  intro q hq
  simp only [Engine.processAtIndex] at hq
  rcases hcase : st.positions[k]? with _ | p
  · rw [hcase] at hq
    exact h q hq
  · rw [hcase] at hq
    simp only [] at hq
    have hmem : p ∈ st.positions := List.getElem?_mem hcase
    have hp := h p hmem
    cases h1 : tp1Check { p with pnl := pnlOf p (st.dataEngine.priceOf p.symbol) }
        (st.dataEngine.priceOf p.symbol) <;>
      simp only [h1, Bool.false_eq_true, if_true, if_false] at hq <;>
      split_ifs at hq <;>
      · have hx := hq
        first
        | (rcases List.mem_or_eq_of_mem_set
              (mem_closePosition _ _ _ _ _ (mem_closePosition _ _ _ _ _ hx)) with hy | hy)
        | (rcases List.mem_or_eq_of_mem_set
              (mem_closePosition _ _ _ _ _ hx) with hy | hy)
        | (rcases List.mem_or_eq_of_mem_set hx with hy | hy)
        · exact h q hy
        · subst hy
          first
          | exact posInv_tp1Step _ (posInv_pnl p _ hp)
          | exact posInv_pnl p _ hp

/-- The `forEach` loop of `updatePositions` preserves the invariant. -/
theorem posInv_updateLoop (now : ℤ) (l : List ℕ) :
    ∀ st : Engine, (∀ p ∈ st.positions, posInv p) →
    ∀ q ∈ (l.foldl
        (fun st k => if k < st.positions.length then st.processAtIndex k now else st)
        st).positions, posInv q := by
  induction l with
  | nil => intro st h q hq; exact h q hq
  | cons a t ih =>
    intro st h
    simp only [List.foldl_cons]
    apply ih
    by_cases hlt : a < st.positions.length
    · simpa [hlt] using posInv_processAtIndex st a now h
    · simpa [hlt] using h

/-- `updatePositions` preserves the invariant. -/
theorem posInv_updatePositions (e : Engine) (now : ℤ)
    (h : ∀ p ∈ e.positions, posInv p) :
    ∀ q ∈ (e.updatePositions now).positions, posInv q :=
  posInv_updateLoop now (List.range e.positions.length) e h

/-- A freshly opened position satisfies the invariant (the asset price is
positive, so the slippage-adjusted entry is positive and the derived
stop/tp levels are strictly ordered), and existing positions keep it. -/
theorem posInv_openPosition (e : Engine) (a : Asset) (dir : Direction) (pat : String)
    (now : ℤ) (hprice : 0 < a.price) (h : ∀ p ∈ e.positions, posInv p) :
    ∀ q ∈ (e.openPosition a dir pat now).1.positions, posInv q := by
  intro q hq
  simp only [Engine.openPosition, List.mem_append, List.mem_singleton] at hq
  rcases hq with hq | rfl
  · exact h q hq
  · cases dir <;>
      simp [posInv, RiskManager.stopLossPercentage] <;>
      refine ⟨?_, ?_, ?_⟩ <;> nlinarith [hprice]

/-- C2 (amended): in every state reachable through `openPosition` and
`updatePositions`, every open position with `tp1Hit = false` satisfies
the strict ordering (LONG: `stopLoss < entryPrice < tp1 < tp2`, SHORT
mirrored); once TP1 has been hit the stop has been relocated to
breakeven, so `stopLoss = entryPrice` while `entryPrice`, `tp1`, `tp2`
keep their strict ordering.  The unconditionally strict claim fails — see
the counterexample. -/
theorem c2_ordering_invariant (e : Engine) (h : Reach e) :
    ∀ p ∈ e.positions, posInv p := by
  induction h with
  | init e he => intro p hp; rw [he] at hp; cases hp
  | market e d hr ih => intro p hp; exact ih p hp
  | openStep e a dir pat now hr hprice hlen ih =>
    exact posInv_openPosition e a dir pat now hprice ih
  | update e now hr ih => exact posInv_updatePositions e now ih

/-- The concrete TP1-hit state `c2e3` is reachable. -/
theorem reach_c2e3 : Reach c2e3 := by
  have h0 : Reach engine0 := Reach.init engine0 rfl
  have h1 : Reach c2e1 :=
    Reach.openStep engine0 btcAsset .LONG "Liquidity_Sweep" 0 h0
      (by norm_num [btcAsset]) (by norm_num [engine0, Engine.maxPositions])
  have h2 : Reach c2e2 := Reach.market c2e1 (c2e1.dataEngine.setPrice "BTC" 100.6) h1
  exact Reach.update c2e2 1 h2

/-- C2's claim as stated is false at a concrete input: in the reachable
state `c2e3` the open LONG position has hit TP1, its stop has been
relocated to the entry price, and the claimed strict ordering
`stopLoss < entryPrice` fails (the stop equals the entry). -/
theorem c2_claimed_ordering_cex :
    Reach c2e3 ∧ (c2e3.positions.map claimedOrderingB) = [false] ∧
    (c2e3.positions.map fun p => p.tp1Hit) = [true] := by
  have hpos : c2e3.positions = [btcPosHit] := by rw [c2e3_eq]
  refine ⟨reach_c2e3, ?_, ?_⟩
  · rw [hpos]
    norm_num [claimedOrderingB, btcPosHit, c4p0]
  · rw [hpos]
    rfl

/-- Witness for C2 at the concrete reachable state `c2e3`. -/
theorem c2_ordering_invariant_witness : posInv btcPosHit :=
  c2_ordering_invariant c2e3 reach_c2e3 btcPosHit
    (by rw [show c2e3.positions = [btcPosHit] from by rw [c2e3_eq]]
        exact List.mem_singleton_self _)

/-- `closePosition` never touches the market data. -/
theorem closePosition_dataEngine (e : Engine) (i : ℕ) (r : CloseReason) (now : ℤ) :
    (e.closePosition i r now).dataEngine = e.dataEngine := by
  unfold Engine.closePosition
  cases hcase : e.positions[i]? <;> rfl

/-- The `updatePositions` callback never touches the market data. -/
theorem processAtIndex_dataEngine (st : Engine) (k : ℕ) (now : ℤ) :
    (st.processAtIndex k now).dataEngine = st.dataEngine := by
  unfold Engine.processAtIndex
  cases hcase : st.positions[k]?
  · rfl
  · simp only []
    split_ifs <;> simp [closePosition_dataEngine]

/-- Writing index 1 leaves the head of a list unchanged. -/
theorem headD_set_one (l : List Position) (x d : Position) :
    (l.set 1 x).headD d = l.headD d := by
  cases l <;> simp

/-- Erasing index 1 leaves the head of a list unchanged. -/
theorem headD_eraseIdx_one (l : List Position) (d : Position) :
    (l.eraseIdx 1).headD d = l.headD d := by
  cases l <;> simp

/-- Closing the position at index 1 leaves the position at index 0
unchanged. -/
theorem closePosition_one_headD (e : Engine) (r : CloseReason) (now : ℤ) (d : Position) :
    ((e.closePosition 1 r now).positions.headD d) = e.positions.headD d := by
  unfold Engine.closePosition
  cases hcase : e.positions[1]?
  · rfl
  · exact headD_eraseIdx_one e.positions d

/-- The `updatePositions` callback at index 1 leaves the position at
index 0 unchanged. -/
theorem processAtIndex_one_headD (st : Engine) (now : ℤ) (d : Position) :
    ((st.processAtIndex 1 now).positions.headD d) = st.positions.headD d := by
  unfold Engine.processAtIndex
  cases hcase : st.positions[1]?
  · rfl
  · simp only []
    split_ifs <;> simp only [closePosition_one_headD] <;> exact headD_set_one _ _ _

/-- The general TP1 step: evaluating the callback at any index whose
position is in the TP1-trigger situation writes back the updated
position (P&L, `tp1Hit`, breakeven stop) and records the
`size · 0.5 · 0.005` profit, with no close. -/
theorem processAtIndex_tp1 (st : Engine) (k : ℕ) (p : Position) (now : ℤ)
    (hk : st.positions[k]? = some p)
    (hready : tp1Ready p (st.dataEngine.priceOf p.symbol)) :
    st.processAtIndex k now =
      { st with
        positions := st.positions.set k (tp1Upd p (st.dataEngine.priceOf p.symbol)),
        riskManager :=
          st.riskManager.recordTrade (jmul (jmul p.size (some 0.5)) (some 0.005)) } := by
  obtain ⟨hhit, hcase⟩ := hready
  unfold Engine.processAtIndex
  rw [hk]
  rcases hcase with ⟨hdir, h1, h2, h3, h4⟩ | ⟨hdir, h1, h2, h3, h4⟩
  · have hnotp2 : ¬ (p.tp2 ≤ st.dataEngine.priceOf p.symbol) := not_le.2 h2
    have hnotsl : ¬ (st.dataEngine.priceOf p.symbol ≤ p.entryPrice) :=
      not_le.2 (lt_of_lt_of_le h4 h1)
    simp [tp1Check, tp2Check, slCheck, tp1Upd, hdir, hhit, h1, hnotp2, hnotsl]
  · have hnotp2 : ¬ (st.dataEngine.priceOf p.symbol ≤ p.tp2) := not_le.2 h2
    have hnotsl : ¬ (p.entryPrice ≤ st.dataEngine.priceOf p.symbol) :=
      not_le.2 (lt_of_le_of_lt h1 h4)
    simp [tp1Check, tp2Check, slCheck, tp1Upd, hdir, hhit, h1, hnotp2, hnotsl]

/-- Evaluating the callback at an index whose position triggers nothing
only refreshes that position's live P&L. -/
theorem processAtIndex_no_trigger (st : Engine) (k : ℕ) (p : Position) (now : ℤ)
    (hk : st.positions[k]? = some p)
    (h1 : tp1Check { p with pnl := pnlOf p (st.dataEngine.priceOf p.symbol) }
      (st.dataEngine.priceOf p.symbol) = false)
    (h2 : tp2Check { p with pnl := pnlOf p (st.dataEngine.priceOf p.symbol) }
      (st.dataEngine.priceOf p.symbol) = false)
    (h3 : slCheck { p with pnl := pnlOf p (st.dataEngine.priceOf p.symbol) }
      (st.dataEngine.priceOf p.symbol) = false) :
    st.processAtIndex k now =
      { st with positions :=
          st.positions.set k { p with pnl := pnlOf p (st.dataEngine.priceOf p.symbol) } } := by
  unfold Engine.processAtIndex
  rw [hk]
  simp [h1, h2, h3]

theorem longNeqShort : Direction.LONG ≠ Direction.SHORT := by decide

theorem c4b_positions : c4b.positions = [btcPosHit, ethPos] := c4e4_positions

theorem c4b_dataEngine :
    c4b.dataEngine =
      { assets := [{ symbol := "BTC", name := "Bitcoin", price := 100.6, basePrice := 100 },
                   { symbol := "ETH", name := "Ethereum", price := 198.5, basePrice := 200 }],
        indicators := [] } := by
  show c4e3.dataEngine.setPrice "ETH" 198.5 = _
  rw [c4e3_dataEngine, c2e2_dataEngine]
  norm_num [DataEngine.setPrice, ethAsset, strBTCneqETH]

theorem c4b_priceBTC : c4b.dataEngine.priceOf "BTC" = 100.6 := by
  rw [c4b_dataEngine]
  norm_num [DataEngine.priceOf, DataEngine.getAsset, List.find?]

theorem c4b_priceETH : c4b.dataEngine.priceOf "ETH" = 198.5 := by
  rw [c4b_dataEngine]
  norm_num [DataEngine.priceOf, DataEngine.getAsset, List.find?, strBTCneqETH]

theorem c4b_surv : (c4b.processAtIndex 0 7).positions.length = 2 := by
  have hk : c4b.positions[0]? = some btcPosHit := by rw [c4b_positions]; rfl
  have hprice : c4b.dataEngine.priceOf btcPosHit.symbol = 100.6 := by
    rw [show btcPosHit.symbol = "BTC" from rfl, c4b_priceBTC]
  rw [processAtIndex_no_trigger c4b 0 btcPosHit 7 hk
    (by rw [hprice]; norm_num [tp1Check, btcPosHit, c4p0])
    (by rw [hprice]; norm_num [tp2Check, btcPosHit, c4p0, longNeqShort])
    (by rw [hprice]; norm_num [slCheck, btcPosHit, c4p0, longNeqShort])]
  rw [c4b_positions]
  rfl

/-- C4 (amended): the TP1 behavior — at an instrument price that has
crossed `tp1` in the favorable direction while staying strictly inside
the `tp2` and stop bounds (`tp1Ready`), an `updatePositions()` call
marks `tp1Hit`, records a realized profit of `size · 0.5 · 0.005` into
the RiskLedger via `recordTrade`, and relocates the stop to exactly the
entry price — holds for every open position not preceded in the array by
a position closed during the same call: (1) the only open position, with
the balance increment made explicit; (2) the first of two open
positions, whose updated state persists to the end of the call; (3) the
second of two open positions whenever the first survives the call's
index-0 evaluation.  The claim's original unconditional form fails when
an earlier-indexed position closes in the same call (see the
counterexample), because `forEach`/`splice` skips the next index. -/
theorem c4_tp1_behavior :
    (∀ (e : Engine) (p : Position) (b sz : ℚ) (now : ℤ),
      e.positions = [p] →
      tp1Ready p (e.dataEngine.priceOf p.symbol) →
      e.riskManager.currentBalance = some b → p.size = some sz →
      e.updatePositions now =
        { e with
          positions := [tp1Upd p (e.dataEngine.priceOf p.symbol)],
          riskManager :=
            e.riskManager.recordTrade (jmul (jmul p.size (some 0.5)) (some 0.005)) } ∧
      (e.updatePositions now).riskManager.currentBalance =
        some (b + sz * 0.5 * 0.005)) ∧
    (∀ (e : Engine) (p q : Position) (now : ℤ),
      e.positions = [p, q] →
      tp1Ready p (e.dataEngine.priceOf p.symbol) →
      e.processAtIndex 0 now =
        { e with
          positions := [tp1Upd p (e.dataEngine.priceOf p.symbol), q],
          riskManager :=
            e.riskManager.recordTrade (jmul (jmul p.size (some 0.5)) (some 0.005)) } ∧
      (e.updatePositions now).positions.headD dummyPosition =
        tp1Upd p (e.dataEngine.priceOf p.symbol)) ∧
    (∀ (e : Engine) (p0 p1 : Position) (now : ℤ),
      e.positions = [p0, p1] →
      (e.processAtIndex 0 now).positions.length = 2 →
      tp1Ready p1 (e.dataEngine.priceOf p1.symbol) →
      ∃ q, (e.processAtIndex 0 now).positions = [q, p1] ∧
        e.updatePositions now =
          { e.processAtIndex 0 now with
            positions := [q, tp1Upd p1 (e.dataEngine.priceOf p1.symbol)],
            riskManager := (e.processAtIndex 0 now).riskManager.recordTrade
              (jmul (jmul p1.size (some 0.5)) (some 0.005)) }) := by
  refine ⟨?_, ?_, ?_⟩
  · intro e p b sz now hpos hready hb hsz
    have hstep := processAtIndex_tp1 e 0 p now (by rw [hpos]; rfl) hready
    rw [updatePositions_singleton e p now hpos, hstep]
    constructor
    · simp [hpos]
    · norm_num [RiskManager.recordTrade, hb, hsz, jmul, jadd, jltB]
  · intro e p q now hpos hready
    have hstep := processAtIndex_tp1 e 0 p now (by rw [hpos]; rfl) hready
    have hA : e.processAtIndex 0 now =
        { e with
          positions := [tp1Upd p (e.dataEngine.priceOf p.symbol), q],
          riskManager :=
            e.riskManager.recordTrade (jmul (jmul p.size (some 0.5)) (some 0.005)) } := by
      rw [hstep]
      simp [hpos]
    refine ⟨hA, ?_⟩
    rw [updatePositions_pair e p q now hpos, hA, if_pos (by simp),
      processAtIndex_one_headD]
    simp
  · intro e p0 p1 now hpos hlen2 hready
    rcases processAtIndex_pair_cases e p0 p1 now hpos with ⟨h1, _⟩ | h | ⟨q, hq⟩
    · rw [h1] at hlen2
      simp at hlen2
    · rw [h] at hlen2
      simp at hlen2
    · refine ⟨q, hq, ?_⟩
      have hk : (e.processAtIndex 0 now).positions[1]? = some p1 := by rw [hq]; rfl
      have hready2 : tp1Ready p1 ((e.processAtIndex 0 now).dataEngine.priceOf p1.symbol) := by
        rw [processAtIndex_dataEngine]
        exact hready
      rw [updatePositions_pair e p0 p1 now hpos, if_pos (by rw [hq]; norm_num),
        processAtIndex_tp1 (e.processAtIndex 0 now) 1 p1 now hk hready2, hq]
      simp [processAtIndex_dataEngine]

/-- Witness for C4: part (1) at the single-position engine `c2e2`
(LONG BTC at price 100.6, size 50, balance 10000), and part (3) at the
two-position engine `c4b`, where the BTC position at index 0 survives
the tick and the SHORT ETH position at index 1 (price 198.5 ≤ tp1
198.9005) receives its TP1 update. -/
theorem c4_tp1_behavior_witness :
    ((c2e2.updatePositions 1).riskManager.currentBalance =
      some (10000 + 50 * 0.5 * 0.005)) ∧
    (∃ q, (c4b.processAtIndex 0 7).positions = [q, ethPos] ∧
      c4b.updatePositions 7 =
        { c4b.processAtIndex 0 7 with
          positions := [q, tp1Upd ethPos (c4b.dataEngine.priceOf ethPos.symbol)],
          riskManager := (c4b.processAtIndex 0 7).riskManager.recordTrade
            (jmul (jmul ethPos.size (some 0.5)) (some 0.005)) }) := by
  constructor
  · have hr : tp1Ready c4p0 (c2e2.dataEngine.priceOf c4p0.symbol) := by
      rw [show c4p0.symbol = "BTC" from rfl, c2e2_price]
      exact ⟨rfl, Or.inl ⟨rfl, by norm_num [c4p0], by norm_num [c4p0], by norm_num [c4p0],
        by norm_num [c4p0]⟩⟩
    exact (c4_tp1_behavior.1 c2e2 c4p0 10000 50 1 c2e2_positions hr
      (by rw [c2e2_rm]; rfl) rfl).2
  · have hr : tp1Ready ethPos (c4b.dataEngine.priceOf ethPos.symbol) := by
      rw [show ethPos.symbol = "ETH" from rfl, c4b_priceETH]
      exact ⟨rfl, Or.inr ⟨rfl, by norm_num [ethPos], by norm_num [ethPos], by norm_num [ethPos],
        by norm_num [ethPos]⟩⟩
    exact c4_tp1_behavior.2.2 c4b btcPosHit ethPos 7 c4b_positions c4b_surv hr

/-- C4's claim as stated is false at a concrete input: in the
two-position engine `c4e4` the SHORT ETH position at index 1 has
`tp1Hit = false` and its price 198.5 is at/below its tp1 (198.9005),
strictly inside its (tp2, stop) band, yet after `updatePositions()` the
position is unchanged with `tp1Hit` still false — the BTC close at
index 0 made the loop skip it. -/
theorem c4_skipped_position_cex :
    c4e4.positions.length = 2 ∧
    ethPos.direction = .SHORT ∧ ethPos.tp1Hit = false ∧
    c4e4.dataEngine.priceOf ethPos.symbol ≤ ethPos.tp1 ∧
    ethPos.tp2 < c4e4.dataEngine.priceOf ethPos.symbol ∧
    c4e4.dataEngine.priceOf ethPos.symbol < ethPos.stopLoss ∧
    c4e4.positions.getD 1 dummyPosition = ethPos ∧
    c4e5.positions = [ethPos] ∧
    (c4e5.positions.map fun p => p.tp1Hit) = [false] := by
  refine ⟨?_, rfl, rfl, ?_, ?_, ?_, ?_, c4e5_facts.1, ?_⟩
  · rw [c4e4_positions]
    rfl
  · rw [show ethPos.symbol = "ETH" from rfl, c4e4_priceETH]
    norm_num [ethPos]
  · rw [show ethPos.symbol = "ETH" from rfl, c4e4_priceETH]
    norm_num [ethPos]
  · rw [show ethPos.symbol = "ETH" from rfl, c4e4_priceETH]
    norm_num [ethPos]
  · rw [c4e4_positions]
    rfl
  · rw [c4e5_facts.1]
    rfl

/-- C10: when `updatePositions()` with two open positions closes the
position at array index 0 (TP2 or stop-loss), the position that was at
index 1 is not evaluated in the same call: it survives with every field
unchanged, and exactly one ClosedTrade is appended. -/
theorem c10_close_skips_next (e : Engine) (p0 p1 : Position) (now : ℤ)
    (hpos : e.positions = [p0, p1])
    (hclosed : (e.processAtIndex 0 now).positions.length = 1) :
    (e.updatePositions now).positions = [p1] ∧
    (e.updatePositions now).closedTrades.length = e.closedTrades.length + 1 :=
  updatePositions_pair_skip e p0 p1 now hpos hclosed

/-- Witness for C10 on the concrete two-position engine `c4e4`. -/
theorem c10_close_skips_next_witness :
    (c4e4.updatePositions 3).positions = [ethPos] ∧
    (c4e4.updatePositions 3).closedTrades.length = c4e4.closedTrades.length + 1 :=
  c10_close_skips_next c4e4 btcPosHit ethPos 3 c4e4_positions
    (by rw [c4proc_positions]; rfl)

/-- C9: `openPosition` always assigns the new position's `slot` field as
one plus the number of positions open before the call (and appends it);
consequently, when position 0 of `[p1, p2]` closes, `p2` alone remains,
and the next opened position also receives slot index 2 — the two
concurrently open positions then both carry slot 2, not distinct
indices. -/
theorem c9_slot_assignment :
    (∀ (e : Engine) (a : Asset) (d : Direction) (pat : String) (now : ℤ),
      (e.openPosition a d pat now).2.slot = e.positions.length + 1 ∧
      (e.openPosition a d pat now).1.positions =
        e.positions ++ [(e.openPosition a d pat now).2]) ∧
    (∀ (e : Engine) (p1 p2 : Position) (r : CloseReason) (now : ℤ),
      e.positions = [p1, p2] → (e.closePosition 0 r now).positions = [p2]) ∧
    (∀ (e : Engine) (p : Position) (a : Asset) (d : Direction) (pat : String) (now : ℤ),
      e.positions = [p] → p.slot = 2 →
      ((e.openPosition a d pat now).1.positions.map fun q => q.slot) = [2, 2]) := by
  refine ⟨fun e a d pat now => ⟨rfl, rfl⟩, ?_, ?_⟩
  · intro e p1 p2 r now hpos
    simp [Engine.closePosition, hpos]
  · intro e p a d pat now hpos hslot
    simp [Engine.openPosition, hpos, hslot]

/-- Witness for C9 on concrete two-slot engines. -/
theorem c9_slot_assignment_witness :
    ((c9eng.closePosition 0 .MANUAL 0).positions = [c9p2]) ∧
    (((c9eng2.openPosition btcAsset .LONG "Liquidity_Sweep" 0).1.positions.map
        fun q => q.slot) = [2, 2]) :=
  ⟨c9_slot_assignment.2.1 c9eng c9p1 c9p2 .MANUAL 0 rfl,
   c9_slot_assignment.2.2 c9eng2 c9p2 btcAsset .LONG "Liquidity_Sweep" 0 rfl rfl⟩

theorem slotTwoGatedList_of (l : List Position) (hlen : l.length = 1)
    (hhit : (l.headD dummyPosition).tp1Hit = false) :
    slotTwoGatedList l = true := by
  cases l with
  | nil => simp at hlen
  | cons p t =>
    cases t with
    | nil =>
      simp only [List.headD_cons] at hhit
      simp [slotTwoGatedList, hhit]
    | cons q t2 => simp at hlen

/-- C5: `runAnalysisCycle()` returns the empty result (`none`, no level,
no failure reason) — never a rejection — whenever any of the
preconditions holds: the engine is not running, `canTrade()` is false,
two positions are already open, exactly one position is open with
`tp1Hit` false, or fewer than 5000 ms have elapsed since the previous
cycle started. -/
theorem c5_precondition_noop (e : Engine) (now : ℤ) (o : Oracle)
    (h : e.isRunning = false ∨ (e.riskManager.canTrade).1 = false ∨
      Engine.maxPositions ≤ e.positions.length ∨
      (e.positions.length = 1 ∧ (e.positions.headD dummyPosition).tp1Hit = false) ∨
      now - e.lastAnalysisTime < 5000) :
    (e.runAnalysisCycle now o).1 = none := by
  rcases h with h1 | hx | hx | ⟨h4a, h4b⟩ | hx
  · simp [Engine.runAnalysisCycle, h1]
  · by_cases h1 : e.isRunning <;>
      simp [Engine.runAnalysisCycle, h1, hx]
  · by_cases h1 : e.isRunning <;> by_cases h2 : (e.riskManager.canTrade).1 <;>
      simp [Engine.runAnalysisCycle, h1, h2, hx]
  · by_cases h1 : e.isRunning <;> by_cases h2 : (e.riskManager.canTrade).1 <;>
      by_cases h3 : Engine.maxPositions ≤ e.positions.length <;>
      simp [Engine.runAnalysisCycle, Engine.slotTwoGated, h1, h2, h3,
        slotTwoGatedList_of e.positions h4a h4b]
  · by_cases h1 : e.isRunning <;> by_cases h2 : (e.riskManager.canTrade).1 <;>
      by_cases h3 : Engine.maxPositions ≤ e.positions.length <;>
      by_cases h4 : slotTwoGatedList e.positions <;>
      simp [Engine.runAnalysisCycle, Engine.slotTwoGated, h1, h2, h3, h4, hx]

/-- Witness for C5 on the stopped engine. -/
theorem c5_precondition_noop_witness :
    (({ engine0 with isRunning := false } : Engine).runAnalysisCycle 0 dummyOracle).1
      = none :=
  c5_precondition_noop { engine0 with isRunning := false } 0 dummyOracle (Or.inl rfl)

/-- The gains/losses loop of `calculateRSI` computes the sum of the
positive deltas and the sum of the magnitudes of the negative deltas over
the visited indices. -/
theorem rsiLoop_eq (history : List Candle) (idxs : List ℕ) :
    ∀ a b : ℚ, idxs.foldl (rsiStep history) (a, b) =
      (a + gainsSum (idxs.map fun i => closeAt history i - closeAt history (i - 1)),
       b + lossesSum (idxs.map fun i => closeAt history i - closeAt history (i - 1))) := by
  induction idxs with
  | nil => intro a b; simp [gainsSum, lossesSum]
  | cons i t ih =>
    intro a b
    simp only [List.foldl_cons, List.map_cons, rsiStep]
    rcases lt_trichotomy (0 : ℚ) (closeAt history i - closeAt history (i - 1)) with hd | hd | hd
    · rw [if_pos hd, ih]
      simp [gainsSum, lossesSum, hd, not_lt.2 hd.le]
      ring
    · rw [if_neg (by rw [← hd]; exact lt_irrefl 0), ih]
      simp [gainsSum, lossesSum, ← hd]
    · rw [if_neg (not_lt.2 hd.le), ih]
      simp [gainsSum, lossesSum, hd, not_lt.2 hd.le, abs_of_neg hd]
      ring

/-- Gains are a sum of positive deltas, hence nonnegative. -/
theorem gainsSum_nonneg (ds : List ℚ) : 0 ≤ gainsSum ds := by
  apply List.sum_nonneg
  intro x hx
  simp [List.mem_filter, gainsSum] at hx
  exact hx.2.le

/-- Losses are a sum of absolute values, hence nonnegative. -/
theorem lossesSum_nonneg (ds : List ℚ) : 0 ≤ lossesSum ds := by
  apply List.sum_nonneg
  intro x hx
  simp [List.mem_map, lossesSum] at hx
  obtain ⟨d, _, rfl⟩ := hx
  exact abs_nonneg d

/-- C8: for every candle history, `calculateRSI` over the most recent
period of close-to-close deltas sums positive deltas as gains and the
absolute values of negative deltas as losses, averages each over
`period`, and returns 100 when the average loss is zero and
`100 − 100/(1 + avgGain/avgLoss)` otherwise; the returned value (50 on
insufficient history included) always lies in [0, 100]. -/
theorem c8_rsi (history : List Candle) (period : ℕ) (hp : 0 < period) :
    (0 ≤ calculateRSI history period ∧ calculateRSI history period ≤ 100) ∧
    (period + 1 ≤ history.length →
      calculateRSI history period =
        (if lossesSum (recentDeltas history period) / period = 0 then 100
         else 100 - 100 /
           (1 + (gainsSum (recentDeltas history period) / period) /
                (lossesSum (recentDeltas history period) / period)))) := by
  unfold calculateRSI
  by_cases hlen : history.length < period + 1
  · refine ⟨?_, fun hcon => absurd hcon (by omega)⟩
    simp only [if_pos hlen]
    norm_num
  · rw [if_neg hlen]
    simp only [rsiLoop_eq history (List.range' (history.length - period) period) 0 0,
      zero_add]
    have hPq : (0 : ℚ) < period := by exact_mod_cast hp
    have hG := gainsSum_nonneg (recentDeltas history period)
    have hL := lossesSum_nonneg (recentDeltas history period)
    rw [show (List.range' (history.length - period) period).map
        (fun i => closeAt history i - closeAt history (i - 1)) =
        recentDeltas history period from rfl]
    by_cases hz : lossesSum (recentDeltas history period) / (period : ℚ) = 0
    · rw [if_pos hz]
      exact ⟨⟨by norm_num, by norm_num⟩, fun _ => rfl⟩
    · rw [if_neg hz]
      have hLpos : 0 < lossesSum (recentDeltas history period) / (period : ℚ) :=
        lt_of_le_of_ne (div_nonneg hL hPq.le) (Ne.symm hz)
      have hrs : 0 ≤ (gainsSum (recentDeltas history period) / (period : ℚ)) /
          (lossesSum (recentDeltas history period) / (period : ℚ)) :=
        div_nonneg (div_nonneg hG hPq.le) hLpos.le
      have h1p : (0 : ℚ) < 1 + (gainsSum (recentDeltas history period) / (period : ℚ)) /
          (lossesSum (recentDeltas history period) / (period : ℚ)) := by linarith
      have hle : 100 / (1 + (gainsSum (recentDeltas history period) / (period : ℚ)) /
          (lossesSum (recentDeltas history period) / (period : ℚ))) ≤ 100 :=
        div_le_self (by norm_num) (by linarith)
      have hpos : 0 < 100 / (1 + (gainsSum (recentDeltas history period) / (period : ℚ)) /
          (lossesSum (recentDeltas history period) / (period : ℚ))) :=
        div_pos (by norm_num) h1p
      exact ⟨⟨by linarith, by linarith⟩, fun _ => rfl⟩

/-- Witness for C8 on the two-candle history with closes 1 and 3 and
period 1. -/
theorem c8_rsi_witness :
    0 < 1 ∧
    ((0 ≤ calculateRSI c8hist 1 ∧ calculateRSI c8hist 1 ≤ 100) ∧
      (1 + 1 ≤ c8hist.length →
        calculateRSI c8hist 1 =
          (if lossesSum (recentDeltas c8hist 1) / ((1 : ℕ) : ℚ) = 0 then 100
           else 100 - 100 /
             (1 + (gainsSum (recentDeltas c8hist 1) / ((1 : ℕ) : ℚ)) /
                  (lossesSum (recentDeltas c8hist 1) / ((1 : ℕ) : ℚ)))))) :=
  ⟨Nat.one_pos, c8_rsi c8hist 1 Nat.one_pos⟩
